import Mathlib

/-!
Shallow embedding of the MCP proxy server core (router, request forwarder,
response aggregator, error handler, gateway) and proofs about it.

Source files embedded:
- `mcp_proxy_server/router.ts` (class Router, RoutingError)
- `mcp_proxy_server/request-forwarder.ts` (class RequestForwarder)
- `mcp_proxy_server/response-aggregator.ts` (class ResponseAggregator)
- `mcp_proxy_server/error-handler.ts` (class ErrorHandler)
- `mcp_proxy_server/proxy-server.ts` (class MCPProxyServer)
- `mcp_proxy_server/models.ts` (envelope constructors)

JavaScript dynamic values (request/response bodies, error `data` payloads)
are modelled by the `JValue` JSON tree below; network effects are modelled
by passing the sequence of per-attempt outcomes (for the forwarder) and the
collected per-server results (for the aggregator) as explicit inputs.
-/

/-- A JSON-like dynamic value, standing for the `any`-typed data the
TypeScript code manipulates (axios response bodies, error payloads). -/
inductive JValue where
  | null : JValue
  | bool (b : Bool) : JValue
  | num (n : Int) : JValue
  | str (s : String) : JValue
  | arr (elems : List JValue) : JValue
  | obj (fields : List (String × JValue)) : JValue

/-- JavaScript `typeof v === "object"` (true for plain objects, arrays and
`null`; false for booleans, numbers and strings). -/
def isObjectType : JValue → Bool
  | .obj _ => true
  | .arr _ => true
  | .null => true
  | _ => false

/-- Key presence test, JavaScript `k in d` on an object (false on
non-objects). -/
def hasKey (d : JValue) (k : String) : Bool :=
  match d with
  | .obj fields => (fields.lookup k).isSome
  | _ => false

/-- Substring test: does `needle` occur contiguously in `hay`?  Models
JavaScript `hay.includes(needle)`. -/
def strContainsSub (hay needle : String) : Bool :=
  (List.range (hay.toList.length + 1)).any
    (fun i => needle.toList.isPrefixOf (hay.toList.drop i))

/-- Lower-casing, modelling JavaScript `s.toLowerCase()` on ASCII data. -/
def strToLower (s : String) : String := String.mk (s.toList.map Char.toLower)

/-- Split a character list at every occurrence of `c`, modelling
JavaScript `s.split(c)` for a one-character separator (always returns at
least one, possibly empty, segment). -/
def splitOnChar (c : Char) : List Char → List (List Char)
  | [] => [[]]
  | x :: xs =>
    let r := splitOnChar c xs
    if x = c then [] :: r
    else
      match r with
      | [] => [[x]]
      | seg :: rest => (x :: seg) :: rest

/-! ## Router (`router.ts`)

`routeRequest` catches every `RoutingError` it throws internally and turns
it into a `RoutingResult` with `success: false` and the error's message, so
the embedding threads the thrown message through `Except`. -/

/-- The `RoutingConfig` interface from `config.ts`: strategy (the source
type is the strings "prefix" | "header", and `routeRequest` has an explicit
branch for any other value), rules map and optional default server. -/
structure RoutingConfig where
  strategy : String
  rules : List (String × String)
  defaultServer : Option String

/-- The part of `ServerConfig` (`config.ts`) the router consumes. -/
structure ServerConfig where
  name : String
  url : String

/-- The `RoutingResult` interface from `router.ts`. -/
structure RoutingResult where
  serverName : String
  serverUrl : String
  success : Bool
  error : Option String

/-- `Router.routeByPrefix`: strip leading slashes, take the first
`/`-delimited segment, and look it up in the rules; `null` when the path is
absent or empty, the first segment is empty, or no (truthy) rule matches.
JavaScript truthiness of strings makes both a missing path and an empty
path, and a rule mapping to the empty string, fall through to `null`. -/
def routeByPrefixSeg (cfg : RoutingConfig) (requestPath : Option String) : Option String :=
  match requestPath with
  | none => none
  | some path =>
    if path = "" then none
    else
      let stripped := path.toList.dropWhile (· = '/')
      let segments := splitOnChar '/' stripped
      let seg := String.mk (segments.headD [])
      if seg = "" then none
      else
        match cfg.rules.lookup seg with
        | some serverName => if serverName = "" then none else some serverName
        | none => none

/-- `Router.routeByHeader`: find the first header whose name lower-cases to
"x-target-mcp"; its (truthy) value is looked up in the rules. -/
def routeByHeaderKey (cfg : RoutingConfig) (headers : Option (List (String × String))) : Option String :=
  match headers with
  | none => none
  | some hs =>
    match hs.find? (fun kv => strToLower kv.1 = "x-target-mcp") with
    | none => none
    | some kv =>
      if kv.2 = "" then none
      else
        match cfg.rules.lookup kv.2 with
        | some serverName => if serverName = "" then none else some serverName
        | none => none

/-- `Router.getServerUrl`: the url of a configured server, or a thrown
`RoutingError("Server not found")`. -/
def getServerUrl (servers : List (String × ServerConfig)) (serverName : String) : Except String String :=
  match servers.lookup serverName with
  | none => .error "Server not found"
  | some server => .ok server.url

/-- The tail of `Router.routeRequest` after strategy dispatch: fall back to
the (truthy) default server when the strategy produced no name, throw
`RoutingError("No route found")` when none remains, then resolve the url
(which may itself throw "Server not found"). -/
def routeResolve (cfg : RoutingConfig) (servers : List (String × ServerConfig))
    (targeted : Option String) : Except String (String × String) :=
  let serverName :=
    match targeted with
    | some s => some s
    | none =>
      match cfg.defaultServer with
      | some d => if d = "" then none else some d
      | none => none
  match serverName with
  | none => .error "No route found"
  | some s =>
    match getServerUrl servers s with
    | .error e => .error e
    | .ok url => .ok (s, url)

/-- The throwing core of `Router.routeRequest` (the body of its `try`
block): pick the strategy, fall back to the default server, resolve the
server url.  Exceptions carry the `RoutingError` message. -/
def routeRequestE (cfg : RoutingConfig) (servers : List (String × ServerConfig))
    (requestPath : Option String) (headers : Option (List (String × String))) :
    Except String (String × String) :=
  if cfg.strategy = "prefix" then routeResolve cfg servers (routeByPrefixSeg cfg requestPath)
  else if cfg.strategy = "header" then routeResolve cfg servers (routeByHeaderKey cfg headers)
  else .error "Invalid routing strategy"

/-- `Router.routeRequest`: never throws — every internal `RoutingError` is
caught and returned as a failed `RoutingResult` carrying its message. -/
def routeRequest (cfg : RoutingConfig) (servers : List (String × ServerConfig))
    (requestPath : Option String) (headers : Option (List (String × String))) :
    RoutingResult :=
  match routeRequestE cfg servers requestPath headers with
  | .ok (serverName, serverUrl) => ⟨serverName, serverUrl, true, none⟩
  | .error msg => ⟨"", "", false, some msg⟩

/-! ## ErrorHandler (`error-handler.ts`) -/

/-- The `sensitiveKeys` list of `ErrorHandler.sanitizeErrorData`. -/
def sensitiveKeys : List String :=
  ["password", "token", "key", "secret", "auth", "credential",
   "api_key", "access_token", "refresh_token", "authorization"]

/-- The key test of `sanitizeErrorData`: the lower-cased key contains one of
the sensitive patterns (case-insensitively). -/
def isSensitiveKey (k : String) : Bool :=
  sensitiveKeys.any (fun s => strContainsSub (strToLower k) (strToLower s))

/-- `ErrorHandler.getRetryDelay`: exponential backoff capped at 30000 ms. -/
def getRetryDelay (attempt : Nat) (baseDelay : Nat) : Nat :=
  min (baseDelay * 2 ^ (attempt - 1)) 30000

mutual

/-- `ErrorHandler.sanitizeErrorData`.  Primitives and `null` are returned
unchanged; an object (or, via JavaScript's `{...data}` spread, an array,
whose elements become fields keyed by their decimal indices) is rebuilt
field by field: a sensitive key's value becomes the marker string, a value
of object type (`typeof === "object"`, which includes arrays and `null`) is
sanitized recursively, anything else is kept. -/
def sanitizeErrorData : JValue → JValue
  | .obj fields => .obj (sanitizeFields fields)
  | .arr elems => .obj (sanitizeElems 0 elems)
  | v => v

/-- One `for (const key in sanitized)` pass of `sanitizeErrorData` over the
fields of an object. -/
def sanitizeFields : List (String × JValue) → List (String × JValue)
  | [] => []
  | (k, v) :: rest =>
    (k, if isSensitiveKey k then JValue.str "[REDACTED]"
        else if isObjectType v then sanitizeErrorData v
        else v) :: sanitizeFields rest

/-- The same pass over the index-keyed fields `{...array}` produces. -/
def sanitizeElems : Nat → List JValue → List (String × JValue)
  | _, [] => []
  | i, v :: rest =>
    (toString i, if isSensitiveKey (toString i) then JValue.str "[REDACTED]"
                 else if isObjectType v then sanitizeErrorData v
                 else v) :: sanitizeElems (i + 1) rest

end

mutual

/-- No sensitive key survives with an unredacted value: every field of an
object, at any nesting depth (also below array elements), whose key matches
a sensitive pattern carries exactly the redaction marker.  This is the
spec's "replace matching values with a fixed redaction marker ... at any
nesting depth" invariant, stated over the output of `sanitizeErrorData`. -/
def noSensitiveLeft : JValue → Bool
  | .obj fields => noSensitiveLeftFields fields
  | .arr elems => noSensitiveLeftList elems
  | _ => true

/-- Field-list form of `noSensitiveLeft`. -/
def noSensitiveLeftFields : List (String × JValue) → Bool
  | [] => true
  | (k, v) :: rest =>
    (if isSensitiveKey k then
       match v with
       | .str s => s == "[REDACTED]"
       | _ => false
     else noSensitiveLeft v) && noSensitiveLeftFields rest

/-- Element-list form of `noSensitiveLeft`. -/
def noSensitiveLeftList : List JValue → Bool
  | [] => true
  | v :: rest => noSensitiveLeft v && noSensitiveLeftList rest

end

/-! ## Envelope constructors (`models.ts`) and RequestForwarder (`request-forwarder.ts`) -/

/-- `createMCPErrorResponse` from `models.ts`, viewed as the JSON it puts on
the wire: an `error` member with numeric `code`, string `message` and the
optional `data` payload, the optional `id`, and `jsonrpc: "2.0"`. -/
def createMCPErrorResponseJ (code : Int) (message : String)
    (id : Option String) (data : Option JValue) : JValue :=
  .obj ([("error", .obj ([("code", .num code), ("message", .str message)] ++
            (match data with | some d => [("data", d)] | none => [])))] ++
        (match id with | some i => [("id", .str i)] | none => []) ++
        [("jsonrpc", .str "2.0")])

/-- `RequestForwarder.isValidMCPResponse`: the raw reply must be an object
declaring `jsonrpc: "2.0"`, with exactly one of `result`/`error` present,
and, when `error` is present, an object error value with numeric `code` and
string `message`.  Non-objects (and arrays, which fail the `jsonrpc` check)
are rejected. -/
def isValidMCPResponse (data : JValue) : Bool :=
  match data with
  | .obj fields =>
    let versionOk :=
      match fields.lookup "jsonrpc" with
      | some (.str v) => v = "2.0"
      | _ => false
    if !versionOk then false
    else
      let hasResult := (fields.lookup "result").isSome
      let hasError := (fields.lookup "error").isSome
      if hasResult && hasError then false
      else if !hasResult && !hasError then false
      else if hasError then
        match fields.lookup "error" with
        | some (.obj efields) =>
          (match efields.lookup "code" with
           | some (.num _) => true
           | _ => false) &&
          (match efields.lookup "message" with
           | some (.str _) => true
           | _ => false)
        | _ => false
      else true
  | _ => false

/-- The `ForwardingOptions` interface of `request-forwarder.ts`. -/
structure ForwardingOptions where
  timeout : Nat
  maxRetries : Nat
  retryDelay : Nat

/-- The forwarder's `defaultOptions`. -/
def defaultForwardingOptions : ForwardingOptions :=
  { timeout := 30000, maxRetries := 3, retryDelay := 1000 }

/-- Outcome of one HTTP attempt of `forwardRequest`, supplied by the
environment: a resolved 2xx reply with its body, an axios rejection carrying
a response status (4xx/5xx) and message, a network-level rejection with no
response, or a per-attempt timeout (axios rejects with no response). -/
inductive AttemptOutcome where
  | reply (data : JValue) : AttemptOutcome
  | httpError (status : Nat) (msg : String) : AttemptOutcome
  | netError (msg : String) : AttemptOutcome
  | timeoutErr (msg : String) : AttemptOutcome

/-- An attempt outcome the retry loop does not stop on: an invalid reply
body (the thrown validation `Error` is not an axios error), a 5xx (or other
non-4xx) response status, a network failure, or a timeout. -/
def retryableOutcome : AttemptOutcome → Bool
  | .reply d => !(isValidMCPResponse d)
  | .httpError s _ => !(decide (400 ≤ s) && decide (s < 500))
  | .netError _ => true
  | .timeoutErr _ => true

/-- State the retry loop of `forwardRequest` accumulates: HTTP attempts
actually made, backoff delays waited, the successfully returned body if
any, and the last error message seen. -/
structure FLoopState where
  attemptsMade : Nat
  delays : List Nat
  outcome : Option JValue
  lastError : Option String

/-- The retry loop of `RequestForwarder.forwardRequest`
(`for (let attempt = 1; attempt <= maxRetries; attempt++)`), driven by the
per-attempt outcomes `env`.  `left` is the number of loop iterations the
bound still allows (initially `maxRetries`) and `attempt` the 1-based
attempt number.  A valid reply returns; an invalid reply body throws a
non-axios error and is retried; a 4xx response breaks out of the loop; any
other failure waits `retryDelay * 2 ^ (attempt - 1)` ms (when a further
attempt remains, `attempt < maxRetries`) and retries. -/
def forwardLoop (serverUrl : String) (env : Nat → AttemptOutcome)
    (maxRetries retryDelay : Nat) :
    Nat → Nat → Option String → FLoopState
  | 0, _, lastError => ⟨0, [], none, lastError⟩
  | left + 1, attempt, lastError =>
    let wait : List Nat :=
      if attempt < maxRetries then [retryDelay * 2 ^ (attempt - 1)] else []
    match env attempt with
    | .reply d =>
      if isValidMCPResponse d then ⟨1, [], some d, lastError⟩
      else
        let msg := "Invalid MCP response format from " ++ serverUrl
        let rest := forwardLoop serverUrl env maxRetries retryDelay left (attempt + 1) (some msg)
        ⟨rest.attemptsMade + 1, wait ++ rest.delays, rest.outcome, rest.lastError⟩
    | .httpError s m =>
      if 400 ≤ s ∧ s < 500 then ⟨1, [], none, some m⟩
      else
        let rest := forwardLoop serverUrl env maxRetries retryDelay left (attempt + 1) (some m)
        ⟨rest.attemptsMade + 1, wait ++ rest.delays, rest.outcome, rest.lastError⟩
    | .netError m =>
      let rest := forwardLoop serverUrl env maxRetries retryDelay left (attempt + 1) (some m)
      ⟨rest.attemptsMade + 1, wait ++ rest.delays, rest.outcome, rest.lastError⟩
    | .timeoutErr m =>
      let rest := forwardLoop serverUrl env maxRetries retryDelay left (attempt + 1) (some m)
      ⟨rest.attemptsMade + 1, wait ++ rest.delays, rest.outcome, rest.lastError⟩

/-- What a call to `forwardRequest` did: attempts made, delays waited, and
the envelope returned to the caller. -/
structure ForwardTrace where
  attemptsMade : Nat
  delays : List Nat
  returned : JValue

/-- `RequestForwarder.forwardRequest`: run the retry loop; if no attempt
returned a validated reply, synthesize `createMCPErrorResponse` with code
-32603, a message naming the server url and the last error (or "Unknown
error"), and data `{serverUrl, attempts: maxRetries, totalDuration}`.
`elapsedMs` stands for the wall-clock `Date.now() - startTime`. -/
def forwardRequest (serverUrl : String) (reqId : Option String)
    (env : Nat → AttemptOutcome) (opts : ForwardingOptions) (elapsedMs : Nat) :
    ForwardTrace :=
  let st := forwardLoop serverUrl env opts.maxRetries opts.retryDelay opts.maxRetries 1 none
  match st.outcome with
  | some d => ⟨st.attemptsMade, st.delays, d⟩
  | none =>
    ⟨st.attemptsMade, st.delays,
      createMCPErrorResponseJ (-32603)
        ("Failed to forward request to " ++ serverUrl ++ ": " ++
          (st.lastError.getD "Unknown error"))
        reqId
        (some (.obj [("serverUrl", .str serverUrl),
                     ("attempts", .num opts.maxRetries),
                     ("totalDuration", .str (toString elapsedMs ++ "ms"))]))⟩

/-! ## ResponseAggregator (`response-aggregator.ts`) -/

/-- The `MCPMethod` interface from `models.ts` (the `parameters` backward
compatibility field is unused by the aggregation code). -/
structure MCPMethod where
  name : String
  description : Option String
  inputSchema : Option JValue

/-- The `ServerMethodResult` interface from `response-aggregator.ts`. -/
structure ServerMethodResult where
  serverName : String
  success : Bool
  methods : Option (List MCPMethod)
  error : Option String
  responseTime : Option Nat

/-- The `AggregationOptions` interface, with every member present (as after
merging with `defaultOptions`). -/
structure AggregationOptions where
  timeout : Nat
  includeServerInfo : Bool
  conflictResolution : String
  continueOnPartialFailure : Bool

/-- The aggregator's `defaultOptions`. -/
def defaultAggregationOptions : AggregationOptions :=
  { timeout := 30000, includeServerInfo := true,
    conflictResolution := "prefix", continueOnPartialFailure := true }

/-- Membership in the insertion-ordered `methodMap` (JavaScript `Map.has`). -/
def mapHas (m : List (String × MCPMethod)) (k : String) : Bool :=
  m.any (fun p => p.1 == k)

/-- JavaScript `Map.set`: overwrite in place when the key exists (keeping
its original insertion position), append otherwise. -/
def mapSet (m : List (String × MCPMethod)) (k : String) (v : MCPMethod) :
    List (String × MCPMethod) :=
  if mapHas m k then m.map (fun p => if p.1 == k then (k, v) else p)
  else m ++ [(k, v)]

/-- The scan of the `suffix` branch of `resolveMethodConflicts`:
`let counter = 1; while (methodMap.has(name_counter)) counter++` — the first
counter whose suffixed name is unused.  `fuel` bounds the search; the call
sites pass enough fuel for the scan to leave the finite map behind. -/
def suffixScan (m : List (String × MCPMethod)) (originalName : String) :
    Nat → Nat → Nat
  | c, 0 => c
  | c, fuel + 1 =>
    if mapHas m (originalName ++ "_" ++ toString c) then
      suffixScan m originalName (c + 1) fuel
    else c

/-- The final uniqueness loop of `resolveMethodConflicts`:
`while (methodMap.has(uniqueName) && uniqueName !== originalName)` rebuild
`uniqueName` as `finalName_counter`.  Fuel-bounded like `suffixScan`. -/
def uniqueLoop (m : List (String × MCPMethod)) (finalName originalName : String) :
    String → Nat → Nat → String
  | u, _, 0 => u
  | u, counter, fuel + 1 =>
    if mapHas m u && u != originalName then
      uniqueLoop m finalName originalName
        (finalName ++ "_" ++ toString counter) (counter + 1) fuel
    else u

/-- JavaScript word character for the `\w` class: ASCII letter, digit or
underscore. -/
def wordChar (c : Char) : Bool := c.isAlphanum || c = '_'

/-- Match the regular expression `from (\w+) server` at the start of `cs`,
returning the captured word. -/
def matchAt (cs : List Char) : Option String :=
  if "from ".toList.isPrefixOf cs then
    let rest := cs.drop 5
    let w := rest.takeWhile wordChar
    if w.isEmpty then none
    else if " server".toList.isPrefixOf (rest.drop w.length) then
      some (String.mk w)
    else none
  else none

/-- Leftmost match of `from (\w+) server`, modelling
`description.match(/from (\w+) server/)` and taking the capture group. -/
def matchFromServer : List Char → Option String
  | [] => none
  | c :: cs =>
    match matchAt (c :: cs) with
    | some w => some w
    | none => matchFromServer cs

/-- The loop body of `ResponseAggregator.resolveMethodConflicts` over the
remaining methods, carrying the insertion-ordered `methodMap`.  On a name
conflict: `prefix` requalifies an unprefixed name with the server inferred
from the description (or "unknown"); `suffix` appends the first unused
`_counter`; `keep-first` skips the method; `keep-last` (and any other
strategy value, since the switch has no default) keeps the original name so
the later `Map.set` overwrites.  Every insertion then passes through the
uniqueness loop. -/
def resolveLoop (strategy : String) :
    List MCPMethod → List (String × MCPMethod) → List (String × MCPMethod)
  | [], m => m
  | method :: rest, m =>
    let originalName := method.name
    if mapHas m originalName then
      if strategy = "keep-first" then resolveLoop strategy rest m
      else
        let finalName :=
          if strategy = "prefix" then
            if (splitOnChar '/' originalName.toList).length > 1 then originalName
            else
              let serverName :=
                (match method.description with
                 | some d => matchFromServer d.toList
                 | none => none).getD "unknown"
              serverName ++ "/" ++ originalName
          else if strategy = "suffix" then
            originalName ++ "_" ++
              toString (suffixScan m originalName 1 (m.length + 2))
          else originalName
        let uniqueName := uniqueLoop m finalName originalName finalName 1 (m.length + 2)
        resolveLoop strategy rest (mapSet m uniqueName { method with name := uniqueName })
    else
      let uniqueName := uniqueLoop m originalName originalName originalName 1 (m.length + 2)
      resolveLoop strategy rest (mapSet m uniqueName { method with name := uniqueName })

/-- `ResponseAggregator.resolveMethodConflicts`: run the loop over all
methods and return `Array.from(methodMap.values())` — the values in
insertion order. -/
def resolveMethodConflicts (methods : List MCPMethod) (strategy : String) :
    List MCPMethod :=
  (resolveLoop strategy methods []).map (fun p => p.2)

/-- The `aggregationStats` record `aggregateMethods` attaches. -/
structure AggregationStats where
  totalServers : Nat
  successfulServers : Nat
  totalMethods : Nat
  aggregationTime : Nat

/-- The `result` payload of a successful aggregation:
`{methods, serverResults?, aggregationStats?}`. -/
structure MethodsResult where
  methods : List MCPMethod
  serverResults : Option (List ServerMethodResult)
  aggregationStats : Option AggregationStats

/-- The error member `aggregateMethods` builds through
`createMCPErrorResponse(-32603, ..., undefined, { serverResults })`. -/
structure AggregateError where
  code : Int
  message : String
  serverResults : List ServerMethodResult

/-- The envelope `aggregateMethods` returns: exactly one of `result`
(via `createMCPResponse`) or `error` (via `createMCPErrorResponse`). -/
structure AggregateResponse where
  result : Option MethodsResult
  error : Option AggregateError

/-- The `allMethods` accumulation of `aggregateMethods`: the concatenated
method lists of the per-server results with `success && methods` (a failed
result, or one with no methods array, contributes nothing). -/
def collectMethods : List ServerMethodResult → List MCPMethod
  | [] => []
  | r :: rest =>
    (match r.success, r.methods with
     | true, some ms => ms
     | _, _ => []) ++ collectMethods rest

/-- The result-processing tail of `ResponseAggregator.aggregateMethods`
(everything after `Promise.allSettled`), over the collected per-server
results in server order.  `allMethods` gathers the methods of the results
with `success && methods`; when no server succeeded and
`continueOnPartialFailure` is false the -32603 error envelope is returned;
otherwise conflicts are resolved and a success envelope is built, with
per-server results and stats attached unless `includeServerInfo` is false.
`totalTime` stands for the wall-clock `Date.now() - startTime`. -/
def aggregateMethods (serverResults : List ServerMethodResult)
    (opts : AggregationOptions) (totalTime : Nat) : AggregateResponse :=
  let successfulResults := serverResults.filter (fun r => r.success)
  if successfulResults.length = 0 && !opts.continueOnPartialFailure then
    { result := none,
      error := some { code := -32603,
                      message := "All downstream servers failed to respond",
                      serverResults := serverResults } }
  else
    let allMethods := collectMethods serverResults
    let resolvedMethods := resolveMethodConflicts allMethods opts.conflictResolution
    if opts.includeServerInfo then
      { result := some
          { methods := resolvedMethods,
            serverResults := some serverResults,
            aggregationStats := some
              { totalServers := serverResults.length,
                successfulServers := successfulResults.length,
                totalMethods := resolvedMethods.length,
                aggregationTime := totalTime } },
        error := none }
    else
      { result := some
          { methods := resolvedMethods,
            serverResults := none,
            aggregationStats := none },
        error := none }

/-! ## Gateway (`proxy-server.ts`) -/

/-- The `MCPRequest` interface from `models.ts`. -/
structure MCPRequest where
  method : String
  params : Option JValue
  id : Option String
  jsonrpc : String

/-- The typed error member of `MCPResponse` (`models.ts`). -/
structure MCPErrorS where
  code : Int
  message : String
  data : Option JValue

/-- The typed `MCPResponse` of `models.ts`, as the gateway returns it. -/
structure MCPResponseS where
  result : Option JValue
  error : Option MCPErrorS
  id : Option String

/-- `createMCPErrorResponse` from `models.ts` at the typed level. -/
def createMCPErrorResponseS (code : Int) (message : String)
    (id : Option String) (data : Option JValue) : MCPResponseS :=
  { result := none,
    error := some { code := code, message := message, data := data },
    id := id }

/-- `MCPProxyServer.handleRequest`.  The two collaborator calls are passed
in as functions: `aggregate` stands for
`responseAggregator.aggregateMethods(serverUrls)` on the special
`get_methods` path and `forward` for
`requestForwarder.forwardRequest(serverUrl, request)` on the routed path.
A failed routing result is mapped to a -32601 error envelope carrying the
router's message (or "No route found for request"), the request path and
the configured server names. -/
def handleRequest (aggregate : Unit → MCPResponseS) (forward : String → MCPResponseS)
    (cfg : RoutingConfig) (servers : List (String × ServerConfig))
    (request : MCPRequest) (requestPath : Option String)
    (headers : Option (List (String × String))) : MCPResponseS :=
  if request.method = "get_methods" then aggregate ()
  else
    let routingResult := routeRequest cfg servers requestPath headers
    if !routingResult.success then
      createMCPErrorResponseS (-32601)
        (routingResult.error.getD "No route found for request")
        request.id
        (some (.obj
          ((match requestPath with
            | some p => [("requestPath", JValue.str p)]
            | none => []) ++
           [("availableServers", .arr (servers.map (fun kv => JValue.str kv.1)))])))
    else forward routingResult.serverUrl

/-! ## Spec-side characterizations

These definitions follow the specification's wording (not the source) and
are used to state the refinement-style claims about the envelope invariant. -/

/-- Field access on a JSON object (`none` on non-objects or missing keys). -/
def objField (d : JValue) (k : String) : Option JValue :=
  match d with
  | .obj fields => fields.lookup k
  | _ => none

/-- Spec §8: "exactly one of result/error is present, never both, never
neither". -/
def exactlyOneResultOrError (d : JValue) : Bool :=
  hasKey d "result" != hasKey d "error"

/-- Spec §4.2: the reply "must declare the expected protocol version". -/
def declaresVersion (d : JValue) : Bool :=
  match objField d "jsonrpc" with
  | some (.str v) => v == "2.0"
  | _ => false

/-- Spec §4.2: "if error, `code` must be numeric and `message` a string". -/
def errorWellFormed (d : JValue) : Bool :=
  match objField d "error" with
  | some (.obj efields) =>
    (match efields.lookup "code" with
     | some (.num _) => true
     | _ => false) &&
    (match efields.lookup "message" with
     | some (.str _) => true
     | _ => false)
  | _ => false

/-! ## Helper lemmas about the forwarder's retry loop -/

theorem forwardLoop_attempts_le (url : String) (env : Nat → AttemptOutcome)
    (mr rd : Nat) : ∀ left attempt lastE,
    (forwardLoop url env mr rd left attempt lastE).attemptsMade ≤ left := by
  intro left
  induction left with
  | zero => intro attempt lastE; exact Nat.le_refl 0
  | succ n ih =>
    intro attempt lastE
    rcases henv : env attempt with e | ⟨s, m⟩ | m | m
    · by_cases hv : isValidMCPResponse e
      · simp [forwardLoop, henv, hv]
      · simp [forwardLoop, henv, hv]
        first
        | exact Nat.succ_le_succ (ih _ _)
        | exact ih _ _
    · by_cases h4 : 400 ≤ s ∧ s < 500
      · simp [forwardLoop, henv, h4]
      · simp [forwardLoop, henv, h4]
        first
        | exact Nat.succ_le_succ (ih _ _)
        | exact ih _ _
    · simp [forwardLoop, henv]
      first
      | exact Nat.succ_le_succ (ih _ _)
      | exact ih _ _
    · simp [forwardLoop, henv]
      first
      | exact Nat.succ_le_succ (ih _ _)
      | exact ih _ _

theorem forwardLoop_all_retryable (url : String) (env : Nat → AttemptOutcome)
    (mr rd : Nat) (hret : ∀ n, retryableOutcome (env n) = true) :
    ∀ left attempt lastE,
    (forwardLoop url env mr rd left attempt lastE).attemptsMade = left ∧
    (forwardLoop url env mr rd left attempt lastE).outcome = none := by
  intro left
  induction left with
  | zero => intro attempt lastE; exact ⟨rfl, rfl⟩
  | succ n ih =>
    intro attempt lastE
    have hr := hret attempt
    rcases henv : env attempt with e | ⟨s, m⟩ | m | m <;> rw [henv] at hr
    · have hv : isValidMCPResponse e = false := by
        simpa [retryableOutcome] using hr
      constructor
      · simp [forwardLoop, henv, hv, (ih _ _).1]
      · simp [forwardLoop, henv, hv, (ih _ _).2]
    · have h4 : ¬(400 ≤ s ∧ s < 500) := by
        intro hx
        simp [retryableOutcome, hx.1, hx.2] at hr
      constructor
      · simp [forwardLoop, henv, h4, (ih _ _).1]
      · simp [forwardLoop, henv, h4, (ih _ _).2]
    · constructor
      · simp [forwardLoop, henv, (ih _ _).1]
      · simp [forwardLoop, henv, (ih _ _).2]
    · constructor
      · simp [forwardLoop, henv, (ih _ _).1]
      · simp [forwardLoop, henv, (ih _ _).2]

theorem forwardLoop_outcome_valid (url : String) (env : Nat → AttemptOutcome)
    (mr rd : Nat) : ∀ left attempt lastE d,
    (forwardLoop url env mr rd left attempt lastE).outcome = some d →
    isValidMCPResponse d = true := by
  intro left
  induction left with
  | zero => intro attempt lastE d h; cases h
  | succ n ih =>
    intro attempt lastE d h
    rcases henv : env attempt with e | ⟨s, m⟩ | m | m
    · by_cases hv : isValidMCPResponse e
      · simp [forwardLoop, henv, hv] at h
        subst h
        exact hv
      · simp [forwardLoop, henv, hv] at h
        exact ih _ _ d h
    · by_cases h4 : 400 ≤ s ∧ s < 500
      · simp [forwardLoop, henv, h4] at h
      · simp [forwardLoop, henv, h4] at h
        exact ih _ _ d h
    · simp [forwardLoop, henv] at h
      exact ih _ _ d h
    · simp [forwardLoop, henv] at h
      exact ih _ _ d h

theorem isValid_createMCPErrorResponseJ (code : Int) (msg : String)
    (id : Option String) (data : Option JValue) :
    isValidMCPResponse (createMCPErrorResponseJ code msg id data) = true := by
  cases id <;> cases data <;> rfl

theorem forwardLoop_delays_all_retryable (url : String) (env : Nat → AttemptOutcome)
    (mr rd : Nat) (hret : ∀ n, retryableOutcome (env n) = true) :
    ∀ left attempt lastE, 1 ≤ attempt → attempt + left = mr + 1 →
    (forwardLoop url env mr rd left attempt lastE).delays
      = (List.range (left - 1)).map (fun i => rd * 2 ^ (attempt - 1 + i)) := by
  intro left
  induction left with
  | zero => intro attempt lastE h1 h2; simp [forwardLoop]
  | succ n ih =>
    intro attempt lastE h1 h2
    have hr := hret attempt
    rcases Nat.eq_zero_or_pos n with hn | hn
    · subst hn
      have ham : ¬ attempt < mr := by omega
      rcases henv : env attempt with e | ⟨s, m⟩ | m | m <;> rw [henv] at hr
      · have hv : isValidMCPResponse e = false := by
          simpa [retryableOutcome] using hr
        simp [forwardLoop, henv, hv, ham]
      · have h4 : ¬(400 ≤ s ∧ s < 500) := by
          intro hx
          simp [retryableOutcome, hx.1, hx.2] at hr
        simp [forwardLoop, henv, h4, ham]
      · simp [forwardLoop, henv, ham]
      · simp [forwardLoop, henv, ham]
    · obtain ⟨m0, rfl⟩ : ∃ m0, n = m0 + 1 := ⟨n - 1, by omega⟩
      have ham : attempt < mr := by omega
      have hgen : ∀ le : Option String,
          (forwardLoop url env mr rd (m0 + 1) (attempt + 1) le).delays
            = (List.range m0).map (fun i => rd * 2 ^ (attempt + i)) := by
        intro le
        rw [ih (attempt + 1) le (by omega) (by omega)]
        refine List.map_congr_left ?_
        intro i _
        rfl
      have hrange : (List.range (m0 + 1 + 1 - 1)).map (fun i => rd * 2 ^ (attempt - 1 + i))
          = rd * 2 ^ (attempt - 1) :: (List.range m0).map (fun i => rd * 2 ^ (attempt + i)) := by
        have he : m0 + 1 + 1 - 1 = m0 + 1 := rfl
        rw [he, List.range_succ_eq_map, List.map_cons, List.map_map]
        refine congrArg₂ List.cons (by simp) ?_
        refine List.map_congr_left ?_
        intro i _
        show rd * 2 ^ (attempt - 1 + (i + 1)) = rd * 2 ^ (attempt + i)
        have hx : attempt - 1 + (i + 1) = attempt + i := by omega
        rw [hx]
      rw [hrange]
      generalize m0 + 1 = L at hgen ⊢
      rcases henv : env attempt with e | ⟨s, m⟩ | m | m <;> rw [henv] at hr
      · have hv : isValidMCPResponse e = false := by
          simpa [retryableOutcome] using hr
        simp [forwardLoop, henv, hv, ham, hgen]
      · have h4 : ¬(400 ≤ s ∧ s < 500) := by
          intro hx
          simp [retryableOutcome, hx.1, hx.2] at hr
        simp [forwardLoop, henv, h4, ham, hgen]
      · simp [forwardLoop, henv, ham, hgen]
      · simp [forwardLoop, henv, ham, hgen]

theorem valid_implies_envelope (d : JValue) (h : isValidMCPResponse d = true) :
    exactlyOneResultOrError d = true ∧ declaresVersion d = true ∧
    (hasKey d "error" = true → errorWellFormed d = true) := by
  cases d with
  | obj fields =>
    simp only [isValidMCPResponse] at h
    simp only [exactlyOneResultOrError, declaresVersion, errorWellFormed, hasKey, objField]
    rcases hjr : fields.lookup "jsonrpc" with _ | jv <;> rw [hjr] at h
    · simp at h
    · cases jv
      case str v =>
        by_cases hv : v = "2.0"
        · subst hv
          rcases hres : fields.lookup "result" with _ | rv
          · rcases herr : fields.lookup "error" with _ | ev
            · rw [hres, herr] at h; simp at h
            · rw [hres, herr] at h
              simp at h
              cases ev <;> simp_all
          · rcases herr : fields.lookup "error" with _ | ev
            · rw [hres, herr] at h
              simp_all
            · rw [hres, herr] at h; simp at h
        · rw [if_pos (by simp [hv])] at h
          exact absurd h (by simp)
      all_goals simp at h
  | null => simp [isValidMCPResponse] at h
  | bool b => simp [isValidMCPResponse] at h
  | num n => simp [isValidMCPResponse] at h
  | str s => simp [isValidMCPResponse] at h
  | arr l => simp [isValidMCPResponse] at h

theorem getServerUrl_match_error (servers : List (String × ServerConfig)) (s m : String)
    (h : (match getServerUrl servers s with
          | Except.error e => Except.error e
          | Except.ok url => Except.ok (s, url)) = (Except.error m : Except String (String × String))) :
    m = "Server not found" := by
  unfold getServerUrl at h
  rcases hls : servers.lookup s with _ | sc <;> rw [hls] at h <;> dsimp only at h
  · injection h with h2
    exact h2.symm
  · cases h

theorem routeResolve_error_msgs (cfg : RoutingConfig) (servers : List (String × ServerConfig))
    (targeted : Option String) (m : String)
    (h : routeResolve cfg servers targeted = .error m) :
    m = "No route found" ∨ m = "Server not found" := by
  unfold routeResolve at h
  rcases targeted with _ | s
  · rcases hdef : cfg.defaultServer with _ | d <;> rw [hdef] at h <;> dsimp only at h
    · injection h with h2
      exact Or.inl h2.symm
    · by_cases hde : d = ""
      · rw [if_pos hde] at h
        dsimp only at h
        injection h with h2
        exact Or.inl h2.symm
      · rw [if_neg hde] at h
        dsimp only at h
        exact Or.inr (getServerUrl_match_error servers d m h)
  · dsimp only at h
    exact Or.inr (getServerUrl_match_error servers s m h)

theorem routeRequestE_error_msgs (cfg : RoutingConfig) (servers : List (String × ServerConfig))
    (p : Option String) (hd : Option (List (String × String))) (m : String)
    (h : routeRequestE cfg servers p hd = .error m) :
    m = "No route found" ∨ m = "Server not found" ∨ m = "Invalid routing strategy" := by
  unfold routeRequestE at h
  by_cases hpre : cfg.strategy = "prefix"
  · rw [if_pos hpre] at h
    rcases routeResolve_error_msgs cfg servers _ m h with h1 | h1
    · exact Or.inl h1
    · exact Or.inr (Or.inl h1)
  · rw [if_neg hpre] at h
    by_cases hh : cfg.strategy = "header"
    · rw [if_pos hh] at h
      rcases routeResolve_error_msgs cfg servers _ m h with h1 | h1
      · exact Or.inl h1
      · exact Or.inr (Or.inl h1)
    · rw [if_neg hh] at h
      injection h with h2
      exact Or.inr (Or.inr h2.symm)

theorem collectMethods_of_no_success (rs : List ServerMethodResult)
    (h : ∀ r ∈ rs, r.success = false) : collectMethods rs = [] := by
  induction rs with
  | nil => rfl
  | cons r rest ih =>
    have hr : r.success = false := h r (by simp)
    have hrest := ih (fun x hx => h x (by simp [hx]))
    simp [collectMethods, hr, hrest]

theorem collectMethods_filter_success (rs : List ServerMethodResult) :
    collectMethods (rs.filter (fun r => r.success)) = collectMethods rs := by
  induction rs with
  | nil => rfl
  | cons r rest ih =>
    by_cases hs : r.success
    · simp [List.filter_cons, hs, collectMethods, ih]
    · have hs2 : r.success = false := by simpa using hs
      simp [List.filter_cons, hs2, collectMethods, ih]

theorem filter_success_nil_of_length (rs : List ServerMethodResult)
    (h : (rs.filter (fun r => r.success)).length = 0) : ∀ r ∈ rs, r.success = false := by
  intro r hr
  have hnil : rs.filter (fun r => r.success) = [] := List.length_eq_zero.mp h
  by_contra hne
  have hmem : r ∈ rs.filter (fun r => r.success) :=
    List.mem_filter.mpr ⟨hr, by simpa using hne⟩
  rw [hnil] at hmem
  cases hmem

theorem filter_success_length_pos (rs : List ServerMethodResult)
    (h : ∃ r ∈ rs, r.success = true) :
    ¬(rs.filter (fun r => r.success)).length = 0 := by
  obtain ⟨r, hr, hs⟩ := h
  intro hlen
  exact absurd hs (by simpa using filter_success_nil_of_length rs hlen r hr)

/-! ## Helper lemmas about the sanitizer, the forwarder wrapper and the aggregator -/

mutual

theorem sanitize_noSens : (v : JValue) → noSensitiveLeft (sanitizeErrorData v) = true
  | .obj fields => by
    simpa [sanitizeErrorData, noSensitiveLeft] using sanitizeFields_noSens fields
  | .arr elems => by
    simpa [sanitizeErrorData, noSensitiveLeft] using sanitizeElems_noSens 0 elems
  | .null => rfl
  | .bool _ => rfl
  | .num _ => rfl
  | .str _ => rfl

theorem sanitizeFields_noSens : (l : List (String × JValue)) →
    noSensitiveLeftFields (sanitizeFields l) = true
  | [] => rfl
  | (k, v) :: rest => by
    have hrest := sanitizeFields_noSens rest
    by_cases hk : isSensitiveKey k
    · simp [sanitizeFields, noSensitiveLeftFields, hk, hrest]
    · by_cases hv : isObjectType v
      · have hval := sanitize_noSens v
        simp [sanitizeFields, noSensitiveLeftFields, hk, hv, hrest, hval]
      · have hval : noSensitiveLeft v = true := by
          cases v <;> simp_all [isObjectType, noSensitiveLeft]
        simp [sanitizeFields, noSensitiveLeftFields, hk, hv, hrest, hval]

theorem sanitizeElems_noSens : (i : Nat) → (l : List JValue) →
    noSensitiveLeftFields (sanitizeElems i l) = true
  | _, [] => rfl
  | i, v :: rest => by
    have hrest := sanitizeElems_noSens (i + 1) rest
    by_cases hk : isSensitiveKey (toString i)
    · simp [sanitizeElems, noSensitiveLeftFields, hk, hrest]
    · by_cases hv : isObjectType v
      · have hval := sanitize_noSens v
        simp [sanitizeElems, noSensitiveLeftFields, hk, hv, hrest, hval]
      · have hval : noSensitiveLeft v = true := by
          cases v <;> simp_all [isObjectType, noSensitiveLeft]
        simp [sanitizeElems, noSensitiveLeftFields, hk, hv, hrest, hval]

end

theorem sanitizeFields_keys : ∀ l : List (String × JValue),
    (sanitizeFields l).map Prod.fst = l.map Prod.fst := by
  intro l
  induction l with
  | nil => rfl
  | cons p rest ih =>
    obtain ⟨k, v⟩ := p
    simp [sanitizeFields, ih]

theorem sanitizeFields_mem (l : List (String × JValue)) (k : String) (v : JValue)
    (hmem : (k, v) ∈ l) (hk : isSensitiveKey k = false) (hv : isObjectType v = false) :
    (k, v) ∈ sanitizeFields l := by
  induction l with
  | nil => cases hmem
  | cons p rest ih =>
    obtain ⟨k2, v2⟩ := p
    rcases List.mem_cons.mp hmem with heq | htail
    · rw [← heq]
      simp [sanitizeFields, hk, hv]
    · simp only [sanitizeFields, List.mem_cons]
      exact Or.inr (ih htail)

theorem sanitize_primitive (v : JValue) (hv : isObjectType v = false) :
    sanitizeErrorData v = v := by
  cases v <;> simp_all [isObjectType, sanitizeErrorData]

theorem forwardRequest_proj (url : String) (reqId : Option String)
    (env : Nat → AttemptOutcome) (opts : ForwardingOptions) (e : Nat) :
    (forwardRequest url reqId env opts e).attemptsMade
      = (forwardLoop url env opts.maxRetries opts.retryDelay opts.maxRetries 1 none).attemptsMade ∧
    (forwardRequest url reqId env opts e).delays
      = (forwardLoop url env opts.maxRetries opts.retryDelay opts.maxRetries 1 none).delays := by
  unfold forwardRequest
  rcases h : (forwardLoop url env opts.maxRetries opts.retryDelay opts.maxRetries 1 none).outcome
    with _ | d <;> simp [h]

theorem forwardRequest_returned_valid (url : String) (reqId : Option String)
    (env : Nat → AttemptOutcome) (opts : ForwardingOptions) (e : Nat) :
    isValidMCPResponse (forwardRequest url reqId env opts e).returned = true := by
  unfold forwardRequest
  rcases h : (forwardLoop url env opts.maxRetries opts.retryDelay opts.maxRetries 1 none).outcome
    with _ | d
  · simp only [h]
    exact isValid_createMCPErrorResponseJ _ _ _ _
  · simp only [h]
    exact forwardLoop_outcome_valid url env opts.maxRetries opts.retryDelay
      opts.maxRetries 1 none d h

/-! ## Claims -/

/-- Claim C1, counterexample: the claim says an aggregation round with zero
successful backends returns a -32603 error envelope for both values of
`continueOnPartialFailure`; but with the flag true (its default) the code
returns a success envelope with an empty merged method list. -/
theorem C1_total_outage_counterexample :
    (aggregateMethods [⟨"github", false, none, some "Connection refused", none⟩]
      defaultAggregationOptions 0).error = none ∧
    ((aggregateMethods [⟨"github", false, none, some "Connection refused", none⟩]
      defaultAggregationOptions 0).result.map (fun r => r.methods)) = some [] := by
  exact ⟨rfl, rfl⟩

/-- Claim C1 (amended): in a round with zero successful backends,
`aggregateMethods` returns the -32603 "All downstream servers failed to
respond" error envelope only when `continueOnPartialFailure` is false; with
the flag true it returns a success envelope with an empty merged method
list. -/
theorem C1_total_outage_amended :
    ∀ (rs : List ServerMethodResult) (opts : AggregationOptions) (t : Nat),
    (rs.filter (fun r => r.success)).length = 0 →
    ((opts.continueOnPartialFailure = false →
       aggregateMethods rs opts t
         = { result := none,
             error := some { code := -32603,
                             message := "All downstream servers failed to respond",
                             serverResults := rs } }) ∧
     (opts.continueOnPartialFailure = true →
       (aggregateMethods rs opts t).error = none ∧
       ((aggregateMethods rs opts t).result.map (fun r => r.methods)) = some [])) := by
  intro rs opts t hlen
  constructor
  · intro hflag
    simp [aggregateMethods, hlen, hflag]
  · intro hflag
    have hcv : collectMethods rs = [] :=
      collectMethods_of_no_success rs (filter_success_nil_of_length rs hlen)
    by_cases hinfo : opts.includeServerInfo
    · constructor
      · simp [aggregateMethods, hflag, hinfo]
      · simp [aggregateMethods, hflag, hinfo, hcv, resolveMethodConflicts, resolveLoop]
    · have hinfo2 : opts.includeServerInfo = false := by simpa using hinfo
      constructor
      · simp [aggregateMethods, hflag, hinfo2]
      · simp [aggregateMethods, hflag, hinfo2, hcv, resolveMethodConflicts, resolveLoop]

/-- Witness for C1 (amended) at one all-failed server: with the flag false
the -32603 envelope is returned, with the flag true (the default options) a
success envelope. -/
theorem C1_total_outage_amended_witness :
    aggregateMethods [⟨"github", false, none, some "Connection refused", none⟩]
        ⟨30000, true, "prefix", false⟩ 0
      = { result := none,
          error := some { code := -32603,
                          message := "All downstream servers failed to respond",
                          serverResults :=
                            [⟨"github", false, none, some "Connection refused", none⟩] } } ∧
    (aggregateMethods [⟨"github", false, none, some "Connection refused", none⟩]
        defaultAggregationOptions 0).error = none :=
  ⟨(C1_total_outage_amended [⟨"github", false, none, some "Connection refused", none⟩]
      ⟨30000, true, "prefix", false⟩ 0 (by rfl)).1 rfl,
   ((C1_total_outage_amended [⟨"github", false, none, some "Connection refused", none⟩]
      defaultAggregationOptions 0 (by rfl)).2 rfl).1⟩

/-- Claim C2, counterexample: the claim says that with
`continueOnPartialFailure = false` any backend failure escalates to an
aggregate error envelope; but with one of two backends failing (one
succeeding) and the flag false, the code still returns a success envelope
built from the surviving backend. -/
theorem C2_partial_failure_counterexample :
    (aggregateMethods
      [⟨"a", true, some [⟨"t1", none, none⟩], none, some 5⟩,
       ⟨"b", false, none, some "Connection refused", none⟩]
      ⟨30000, true, "prefix", false⟩ 0).error = none ∧
    ((aggregateMethods
      [⟨"a", true, some [⟨"t1", none, none⟩], none, some 5⟩,
       ⟨"b", false, none, some "Connection refused", none⟩]
      ⟨30000, true, "prefix", false⟩ 0).result.map
        (fun r => r.methods.map (fun m => m.name))) = some ["t1"] := by
  exact ⟨rfl, rfl⟩

/-- Claim C2 (amended): whenever at least one backend succeeds — under
either value of `continueOnPartialFailure` — `aggregateMethods` returns a
success envelope whose methods are exactly the conflict-resolved
capabilities of the backends that succeeded; with the flag true the round
always yields a success envelope; with the flag false an error (-32603) is
returned only when every backend failed; and (when server info is
included) the success envelope reports one outcome per backend. -/
theorem C2_partial_failure_amended :
    ∀ (rs : List ServerMethodResult) (opts : AggregationOptions) (t : Nat),
    ((∃ r ∈ rs, r.success = true) →
      (aggregateMethods rs opts t).error = none ∧
      ((aggregateMethods rs opts t).result.map (fun r => r.methods))
        = some (resolveMethodConflicts
            (collectMethods (rs.filter (fun r => r.success))) opts.conflictResolution)) ∧
    (opts.continueOnPartialFailure = true → (aggregateMethods rs opts t).error = none) ∧
    (opts.continueOnPartialFailure = false →
      (rs.filter (fun r => r.success)).length = 0 →
      ((aggregateMethods rs opts t).error.map (fun e => e.code)) = some (-32603)) ∧
    (opts.includeServerInfo = true → (∃ r ∈ rs, r.success = true) →
      ((aggregateMethods rs opts t).result.map (fun r => r.serverResults)) = some (some rs)) := by
  intro rs opts t
  refine ⟨?_, ?_, ?_, ?_⟩
  · intro hex
    have hlen := filter_success_length_pos rs hex
    rw [collectMethods_filter_success]
    by_cases hinfo : opts.includeServerInfo
    · exact ⟨by simp [aggregateMethods, hlen, hinfo], by simp [aggregateMethods, hlen, hinfo]⟩
    · have hinfo2 : opts.includeServerInfo = false := by simpa using hinfo
      exact ⟨by simp [aggregateMethods, hlen, hinfo2], by simp [aggregateMethods, hlen, hinfo2]⟩
  · intro hflag
    by_cases hinfo : opts.includeServerInfo <;>
      by_cases hlen : (rs.filter (fun r => r.success)).length = 0 <;>
        simp [aggregateMethods, hflag, hinfo, hlen]
  · intro hflag hlen
    simp [aggregateMethods, hflag, hlen]
  · intro hinfo hex
    have hlen := filter_success_length_pos rs hex
    simp [aggregateMethods, hlen, hinfo]

/-- Witness for C2 (amended) at the spec's one-success-one-failure round
with default options: the round succeeds and reports both per-backend
outcomes. -/
theorem C2_partial_failure_amended_witness :
    (aggregateMethods
      [⟨"a", true, some [⟨"t1", none, none⟩], none, some 5⟩,
       ⟨"b", false, none, some "Connection refused", none⟩]
      defaultAggregationOptions 0).error = none ∧
    ((aggregateMethods
      [⟨"a", true, some [⟨"t1", none, none⟩], none, some 5⟩,
       ⟨"b", false, none, some "Connection refused", none⟩]
      defaultAggregationOptions 0).result.map (fun r => r.serverResults))
      = some (some
          [⟨"a", true, some [⟨"t1", none, none⟩], none, some 5⟩,
           ⟨"b", false, none, some "Connection refused", none⟩]) :=
  ⟨((C2_partial_failure_amended _ defaultAggregationOptions 0).1
      ⟨⟨"a", true, some [⟨"t1", none, none⟩], none, some 5⟩,
        List.mem_cons_self _ _, rfl⟩).1,
   (C2_partial_failure_amended _ defaultAggregationOptions 0).2.2.2 rfl
      ⟨⟨"a", true, some [⟨"t1", none, none⟩], none, some 5⟩,
        List.mem_cons_self _ _, rfl⟩⟩

/-- Claim C3: the retry loop is `for (attempt = 1; attempt <= maxRetries)`,
so with `maxRetries = 2` and every attempt failing retryably only 2 HTTP
attempts are made — not the `maxRetries + 1 = 3` the claim (and the repo's
own request-forwarder tests, which expect 3 calls and `attempts: 3`)
require.  The exhaustion envelope itself does carry code -32603, a message
naming the address and the last error, and data with the address, the
(code's) attempt count and the elapsed time. -/
theorem C3_retry_budget_eval :
    (forwardRequest "http://localhost:8001" none (fun _ => .netError "Network Error")
      ⟨5000, 2, 100⟩ 7).attemptsMade = 2 ∧
    ¬((forwardRequest "http://localhost:8001" none (fun _ => .netError "Network Error")
      ⟨5000, 2, 100⟩ 7).attemptsMade = 3) ∧
    ((objField (forwardRequest "http://localhost:8001" none (fun _ => .netError "Network Error")
      ⟨5000, 2, 100⟩ 7).returned "error").bind (fun e => objField e "code"))
      = some (.num (-32603)) ∧
    (((objField (forwardRequest "http://localhost:8001" none (fun _ => .netError "Network Error")
      ⟨5000, 2, 100⟩ 7).returned "error").bind (fun e => objField e "data")).bind
        (fun d => objField d "attempts")) = some (.num 2) ∧
    (((objField (forwardRequest "http://localhost:8001" none (fun _ => .netError "Network Error")
      ⟨5000, 2, 100⟩ 7).returned "error").bind (fun e => objField e "data")).bind
        (fun d => objField d "totalDuration")) = some (.str "7ms") ∧
    ((objField (forwardRequest "http://localhost:8001" none (fun _ => .netError "Network Error")
      ⟨5000, 2, 100⟩ 7).returned "error").bind (fun e => objField e "message"))
      = some (.str "Failed to forward request to http://localhost:8001: Network Error") := by
  exact ⟨by decide, by decide, rfl, rfl, rfl, rfl⟩

/-- Claim C4, counterexample: the claim says the forwarder's inter-attempt
delay equals `min(base * 2^(n-1), 30000)`; but the forwarder computes
`retryDelay * Math.pow(2, attempt - 1)` with no cap: in a run with
`maxRetries = 7`, base 1000 and every attempt failing, the delay after
attempt 6 is 32000 ms while `ErrorHandler.getRetryDelay(6, 1000)` is
30000 ms. -/
theorem C4_backoff_counterexample :
    (forwardRequest "http://s" none (fun _ => .netError "connect ECONNREFUSED")
      ⟨30000, 7, 1000⟩ 0).delays = [1000, 2000, 4000, 8000, 16000, 32000] ∧
    getRetryDelay 6 1000 = 30000 ∧
    ¬((forwardRequest "http://s" none (fun _ => .netError "connect ECONNREFUSED")
      ⟨30000, 7, 1000⟩ 0).delays.getD 5 0 = getRetryDelay 6 1000) := by
  exact ⟨by decide, by decide, by decide⟩

/-- Claim C4 (amended): the forwarder waits exactly
`retryDelay * 2^(n-1)` ms after attempt `n`, with no cap (under an
all-retryable run the delay list is 2^0, 2^1, … times the base);
`ErrorHandler.getRetryDelay` computes `min(base * 2^(n-1), 30000)`, so the
two policies agree exactly while the uncapped value stays at or below
30000 ms; `getRetryDelay(n, 1000)` yields 1000, 2000, 4000, 8000, 16000,
then caps at 30000. -/
theorem C4_backoff_amended :
    (∀ (url : String) (reqId : Option String) (env : Nat → AttemptOutcome)
       (opts : ForwardingOptions) (e : Nat),
      (∀ n, retryableOutcome (env n) = true) →
      (forwardRequest url reqId env opts e).delays
        = (List.range (opts.maxRetries - 1)).map (fun i => opts.retryDelay * 2 ^ i)) ∧
    (∀ attempt baseDelay : Nat, getRetryDelay attempt baseDelay
        = min (baseDelay * 2 ^ (attempt - 1)) 30000) ∧
    (∀ attempt baseDelay : Nat, baseDelay * 2 ^ (attempt - 1) ≤ 30000 →
      baseDelay * 2 ^ (attempt - 1) = getRetryDelay attempt baseDelay) ∧
    (List.range 8).map (fun i => getRetryDelay (i + 1) 1000)
      = [1000, 2000, 4000, 8000, 16000, 30000, 30000, 30000] := by
  refine ⟨?_, fun _ _ => rfl, ?_, by decide⟩
  · intro url reqId env opts e hret
    rw [(forwardRequest_proj url reqId env opts e).2]
    rw [forwardLoop_delays_all_retryable url env opts.maxRetries opts.retryDelay hret
      opts.maxRetries 1 none (Nat.le_refl 1) (by omega)]
    refine List.map_congr_left ?_
    intro i _
    norm_num
  · intro attempt baseDelay h
    exact (min_eq_left h).symm

/-- Witness for C4 (amended): a concrete all-failing run with the default
options waits 1000 then 2000 ms, and the capped policy agrees with the
uncapped product below the cap. -/
theorem C4_backoff_amended_witness :
    (forwardRequest "http://s" none (fun _ => .netError "down")
        defaultForwardingOptions 0).delays
      = (List.range (defaultForwardingOptions.maxRetries - 1)).map
          (fun i => defaultForwardingOptions.retryDelay * 2 ^ i) ∧
    1000 * 2 ^ (3 - 1) = getRetryDelay 3 1000 :=
  ⟨C4_backoff_amended.1 "http://s" none _ defaultForwardingOptions 0 (fun _ => rfl),
   C4_backoff_amended.2.2.1 3 1000 (by decide)⟩

/-- Claim C5: every envelope `RequestForwarder.forwardRequest` returns or
accepts contains exactly one of result/error; a backend reply passes
validation only if it declares protocol version "2.0" and, when it carries
an error, that error has a numeric code and a string message; and a reply
failing validation is never the envelope returned to the caller (every
returned envelope — validated backend reply or synthesized error — itself
satisfies `isValidMCPResponse`). -/
theorem C5_envelope_invariant :
    (∀ d : JValue, isValidMCPResponse d = true →
      exactlyOneResultOrError d = true ∧ declaresVersion d = true ∧
      (hasKey d "error" = true → errorWellFormed d = true)) ∧
    (∀ (serverUrl : String) (reqId : Option String) (env : Nat → AttemptOutcome)
       (opts : ForwardingOptions) (elapsedMs : Nat),
      isValidMCPResponse (forwardRequest serverUrl reqId env opts elapsedMs).returned = true) ∧
    (∀ (serverUrl : String) (reqId : Option String) (env : Nat → AttemptOutcome)
       (opts : ForwardingOptions) (elapsedMs : Nat) (d : JValue),
      isValidMCPResponse d = false →
      ¬((forwardRequest serverUrl reqId env opts elapsedMs).returned = d)) := by
  refine ⟨valid_implies_envelope, forwardRequest_returned_valid, ?_⟩
  intro serverUrl reqId env opts elapsedMs d hd heq
  have hv := forwardRequest_returned_valid serverUrl reqId env opts elapsedMs
  rw [heq, hd] at hv
  cases hv

/-- Witness for C5 at a concrete valid reply and a concrete invalid one. -/
theorem C5_envelope_invariant_witness :
    exactlyOneResultOrError (.obj [("jsonrpc", .str "2.0"), ("result", .obj [])]) = true ∧
    ¬((forwardRequest "http://u" none (fun _ => .netError "down")
        defaultForwardingOptions 0).returned = .obj [("invalid", .str "response")]) :=
  ⟨(C5_envelope_invariant.1 (.obj [("jsonrpc", .str "2.0"), ("result", .obj [])]) rfl).1,
   C5_envelope_invariant.2.2 "http://u" none (fun _ => .netError "down")
      defaultForwardingOptions 0 (.obj [("invalid", .str "response")]) rfl⟩

/-- Claim C6: a 4xx backend reply stops the retry loop immediately — the
attempt that received it is the only one made from that point, and no
backoff wait happens; a 5xx reply, a network failure, an attempt timeout,
or an invalid reply body is retried until the attempt budget is spent
(an all-retryable run makes exactly `maxRetries` attempts); and no run ever
exceeds the attempt limit. -/
theorem C6_retry_classification :
    (∀ (url : String) (env : Nat → AttemptOutcome) (mr rd left attempt : Nat)
       (lastE : Option String) (s : Nat) (m : String),
      env attempt = .httpError s m → 400 ≤ s → s < 500 →
      (forwardLoop url env mr rd (left + 1) attempt lastE).attemptsMade = 1 ∧
      (forwardLoop url env mr rd (left + 1) attempt lastE).delays = []) ∧
    (∀ (url : String) (reqId : Option String) (env : Nat → AttemptOutcome)
       (opts : ForwardingOptions) (e : Nat),
      (∀ n, retryableOutcome (env n) = true) →
      (forwardRequest url reqId env opts e).attemptsMade = opts.maxRetries) ∧
    (∀ (url : String) (reqId : Option String) (env : Nat → AttemptOutcome)
       (opts : ForwardingOptions) (e : Nat),
      (forwardRequest url reqId env opts e).attemptsMade ≤ opts.maxRetries) := by
  refine ⟨?_, ?_, ?_⟩
  · intro url env mr rd left attempt lastE s m henv h1 h2
    constructor
    · simp [forwardLoop, henv, h1, h2]
    · simp [forwardLoop, henv, h1, h2]
  · intro url reqId env opts e hret
    rw [(forwardRequest_proj url reqId env opts e).1]
    exact (forwardLoop_all_retryable url env opts.maxRetries opts.retryDelay hret
      opts.maxRetries 1 none).1
  · intro url reqId env opts e
    rw [(forwardRequest_proj url reqId env opts e).1]
    exact forwardLoop_attempts_le url env opts.maxRetries opts.retryDelay
      opts.maxRetries 1 none

/-- Witness for C6: a 404 stops after one attempt; an all-network-error run
with the default options makes exactly 3 attempts, within the limit. -/
theorem C6_retry_classification_witness :
    (forwardLoop "http://u" (fun _ => .httpError 404 "not found") 3 1000 3 1 none).attemptsMade
      = 1 ∧
    (forwardRequest "http://u" none (fun _ => .netError "down")
      defaultForwardingOptions 0).attemptsMade = 3 ∧
    (forwardRequest "http://u" none (fun _ => .netError "down")
      defaultForwardingOptions 0).attemptsMade ≤ 3 :=
  ⟨(C6_retry_classification.1 "http://u" (fun _ => .httpError 404 "not found") 3 1000 2 1
      none 404 "not found" rfl (by decide) (by decide)).1,
   C6_retry_classification.2.1 "http://u" none (fun _ => .netError "down")
      defaultForwardingOptions 0 (fun _ => rfl),
   C6_retry_classification.2.2 "http://u" none (fun _ => .netError "down")
      defaultForwardingOptions 0⟩

/-- Claim C7: under the prefix strategy the router strips leading slashes
and uses the first `/`-delimited path segment as the lookup key — routing
"/github/x" (or "///github/x") under the rule github → "github-backend"
resolves to "github-backend"; an empty or absent path falls through to the
configured default backend; with no matching key and no default it fails
with "No route found"; a rule naming a backend absent from the descriptor
set fails with the distinct "Server not found"; and an unsupported strategy
value fails with "Invalid routing strategy". -/
theorem C7_prefix_routing : ∀ u v : String,
    routeRequest ⟨"prefix", [("github", "github-backend")], none⟩
      [("github-backend", ⟨"github-backend", u⟩)] (some "/github/x") none
      = ⟨"github-backend", u, true, none⟩ ∧
    routeRequest ⟨"prefix", [("github", "github-backend")], none⟩
      [("github-backend", ⟨"github-backend", u⟩)] (some "///github/x") none
      = ⟨"github-backend", u, true, none⟩ ∧
    routeRequest ⟨"prefix", [("github", "github-backend")], some "fs"⟩
      [("fs", ⟨"fs", v⟩)] (some "") none = ⟨"fs", v, true, none⟩ ∧
    routeRequest ⟨"prefix", [("github", "github-backend")], some "fs"⟩
      [("fs", ⟨"fs", v⟩)] none none = ⟨"fs", v, true, none⟩ ∧
    routeRequest ⟨"prefix", [], none⟩ [] (some "") none
      = ⟨"", "", false, some "No route found"⟩ ∧
    routeRequest ⟨"prefix", [("github", "github-backend")], none⟩ []
      (some "/nomatch/x") none = ⟨"", "", false, some "No route found"⟩ ∧
    routeRequest ⟨"prefix", [("github", "github-backend")], none⟩ []
      (some "/github/x") none = ⟨"", "", false, some "Server not found"⟩ ∧
    routeRequest ⟨"round-robin", [("github", "github-backend")], none⟩ []
      (some "/github/x") none = ⟨"", "", false, some "Invalid routing strategy"⟩ := by
  intro u v
  refine ⟨rfl, rfl, rfl, rfl, rfl, rfl, rfl, rfl⟩

/-- Claim C9: the `suffix` conflict-resolution strategy numbers duplicates
per duplicate name by scanning for the next unused `_1`, `_2`, … suffix:
merging A's [t1, t2] with B's [t2, t3] yields exactly {t1, t2, t2_1, t3}
(also shown end-to-end through `aggregateMethods`); a triple duplicate
becomes dup, dup_1, dup_2; and two interleaved duplicate names are each
numbered from `_1` independently. -/
theorem C9_suffix_conflicts :
    (resolveMethodConflicts
      [⟨"t1", none, none⟩, ⟨"t2", none, none⟩, ⟨"t2", none, none⟩, ⟨"t3", none, none⟩]
      "suffix").map (fun m => m.name) = ["t1", "t2", "t2_1", "t3"] ∧
    ((aggregateMethods
      [⟨"A", true, some [⟨"t1", none, none⟩, ⟨"t2", none, none⟩], none, none⟩,
       ⟨"B", true, some [⟨"t2", none, none⟩, ⟨"t3", none, none⟩], none, none⟩]
      ⟨30000, false, "suffix", true⟩ 0).result.map
        (fun r => r.methods.map (fun m => m.name))) = some ["t1", "t2", "t2_1", "t3"] ∧
    (resolveMethodConflicts
      [⟨"dup", none, none⟩, ⟨"dup", none, none⟩, ⟨"dup", none, none⟩]
      "suffix").map (fun m => m.name) = ["dup", "dup_1", "dup_2"] ∧
    (resolveMethodConflicts
      [⟨"a", none, none⟩, ⟨"b", none, none⟩, ⟨"a", none, none⟩, ⟨"b", none, none⟩]
      "suffix").map (fun m => m.name) = ["a", "b", "a_1", "b_1"] := by
  exact ⟨by decide, by decide, by decide, by decide⟩

/-- Claim C8, counterexample: the claim says `sanitizeErrorData` leaves
arrays structurally intact; but JavaScript's `{...data}` spread turns an
array into a plain object keyed by decimal indices, so a nested array comes
back as an index-keyed object, not an array (redaction of the sensitive
sibling still happens). -/
theorem C8_sanitize_counterexample :
    sanitizeErrorData
        (.obj [("password", .str "hunter2"), ("items", .arr [.num 1, .num 2])])
      = .obj [("password", .str "[REDACTED]"),
              ("items", .obj [("0", .num 1), ("1", .num 2)])] ∧
    ¬(sanitizeErrorData (.obj [("items", .arr [.num 1])])
        = .obj [("items", .arr [.num 1])]) := by
  constructor
  · rfl
  · have h : sanitizeErrorData (.obj [("items", .arr [.num 1])])
        = .obj [("items", .obj [("0", .num 1)])] := rfl
    rw [h]
    simp

/-- Claim C8 (amended): `sanitizeErrorData` replaces the value of every
key that case-insensitively contains one of the sensitive patterns with
the marker "[REDACTED]" at every nesting depth (no sensitive key survives
unredacted anywhere in the output), preserves the keys of every object in
order, leaves sibling non-sensitive keys with non-object values untouched,
and returns primitives unchanged; arrays, however, are converted to
index-keyed plain objects (their elements still sanitized recursively)
rather than kept as arrays. -/
theorem C8_sanitize_amended :
    (∀ v : JValue, noSensitiveLeft (sanitizeErrorData v) = true) ∧
    (∀ l : List (String × JValue), (sanitizeFields l).map Prod.fst = l.map Prod.fst) ∧
    (∀ (l : List (String × JValue)) (k : String) (v : JValue),
      (k, v) ∈ l → isSensitiveKey k = false → isObjectType v = false →
      (k, v) ∈ sanitizeFields l) ∧
    (∀ v : JValue, isObjectType v = false → sanitizeErrorData v = v) :=
  ⟨sanitize_noSens, sanitizeFields_keys, sanitizeFields_mem, sanitize_primitive⟩

/-- Witness for C8 (amended) on a concrete payload with a sensitive key, a
non-sensitive sibling and a primitive. -/
theorem C8_sanitize_amended_witness :
    noSensitiveLeft (sanitizeErrorData
      (.obj [("token", .str "t"), ("outer", .obj [("api_key", .str "k")])])) = true ∧
    ("user", JValue.str "bob") ∈
      sanitizeFields [("password", .str "x"), ("user", .str "bob")] ∧
    sanitizeErrorData (.num 7) = .num 7 :=
  ⟨C8_sanitize_amended.1 (.obj [("token", .str "t"), ("outer", .obj [("api_key", .str "k")])]),
   C8_sanitize_amended.2.2.1 [("password", .str "x"), ("user", .str "bob")]
      "user" (JValue.str "bob") (by simp) (by decide) (by decide),
   C8_sanitize_amended.2.2.2 (.num 7) (by decide)⟩

/-- Claim C10: for every inbound request whose routing fails — no matching
rule and no default, a rule naming an unconfigured backend, or an invalid
strategy — `MCPProxyServer.handleRequest` returns an error envelope with
code -32601 and no result, never -32602 on this path; and
`Router.routeRequest` never throws: every failure is a returned
`RoutingResult` carrying one of the three `RoutingError` messages. -/
theorem C10_routing_failure_code :
    (∀ (aggregate : Unit → MCPResponseS) (forward : String → MCPResponseS)
       (cfg : RoutingConfig) (servers : List (String × ServerConfig))
       (request : MCPRequest) (requestPath : Option String)
       (headers : Option (List (String × String))),
      ¬(request.method = "get_methods") →
      (routeRequest cfg servers requestPath headers).success = false →
      ((handleRequest aggregate forward cfg servers request requestPath headers).error.map
        (fun e => e.code)) = some (-32601) ∧
      (handleRequest aggregate forward cfg servers request requestPath headers).result = none ∧
      ¬(((handleRequest aggregate forward cfg servers request requestPath headers).error.map
        (fun e => e.code)) = some (-32602))) ∧
    (∀ (cfg : RoutingConfig) (servers : List (String × ServerConfig))
       (requestPath : Option String) (headers : Option (List (String × String))),
      (routeRequest cfg servers requestPath headers).success = false →
      ∃ m, (routeRequest cfg servers requestPath headers).error = some m ∧
        (m = "No route found" ∨ m = "Server not found" ∨ m = "Invalid routing strategy")) := by
  constructor
  · intro aggregate forward cfg servers request p hd hm hfail
    refine ⟨?_, ?_, ?_⟩ <;>
      simp [handleRequest, hm, hfail, createMCPErrorResponseS]
  · intro cfg servers p hd hfail
    unfold routeRequest at hfail ⊢
    rcases hE : routeRequestE cfg servers p hd with m | ⟨n, uurl⟩
    · exact ⟨m, rfl, routeRequestE_error_msgs cfg servers p hd m hE⟩
    · rw [hE] at hfail
      exact Bool.noConfusion hfail

/-- Witness for C10: an invalid routing strategy surfaces as -32601 (not
-32602) from the gateway, and a failed route carries a message. -/
theorem C10_routing_failure_code_witness :
    ((handleRequest (fun _ => ⟨none, none, none⟩) (fun _ => ⟨none, none, none⟩)
        ⟨"round-robin", [], none⟩ [] ⟨"tools/call", none, none, "2.0"⟩
        (some "/x") none).error.map (fun e => e.code)) = some (-32601) ∧
    ∃ m, (routeRequest ⟨"prefix", [], none⟩ [] (some "/x") none).error = some m ∧
      (m = "No route found" ∨ m = "Server not found" ∨ m = "Invalid routing strategy") :=
  ⟨(C10_routing_failure_code.1 (fun _ => ⟨none, none, none⟩) (fun _ => ⟨none, none, none⟩)
      ⟨"round-robin", [], none⟩ [] ⟨"tools/call", none, none, "2.0"⟩ (some "/x") none
      (by decide) (by decide)).1,
   C10_routing_failure_code.2 ⟨"prefix", [], none⟩ [] (some "/x") none (by decide)⟩

/-- Witness for C7 at a concrete backend url. -/
theorem C7_prefix_routing_witness :
    routeRequest ⟨"prefix", [("github", "github-backend")], none⟩
      [("github-backend", ⟨"github-backend", "http://localhost:8001"⟩)] (some "/github/x") none
      = ⟨"github-backend", "http://localhost:8001", true, none⟩ :=
  (C7_prefix_routing "http://localhost:8001" "http://fs").1
